import Mathlib

/-!
Verification of the Booking Table Aggregator of the airline demand analysis
dashboard (`app.py`).

The program is a linear pandas pipeline: load a CSV into a table of booking
records, derive the `route`, `month` and `day_of_week` columns, filter the
table by origin, destination and departure-date range, and produce three
aggregate views (popular routes, monthly price trend, demand by weekday).

Shallow embedding conventions:
* a DataFrame is a `List BookingRecord` (rows in table order);
* prices are `ℚ` and a pandas `mean` is `sum / length`;
* `pd.groupby(k)` sorts the distinct keys ascending and yields, for each key,
  the sub-list of rows carrying that key;
* `sort_values(by, ascending=True)` is a stable ascending sort
  (for the sizes at hand numpy's introsort runs its stable insertion-sort
  branch), and `ascending=False` reverses the stable ascending order, which
  is what pandas' `nargsort` does (`indexer = indexer[::-1]`);
* string comparison is lexicographic by code point, as in Python;
* `datetime` values carry a calendar date plus a time-of-day component, and
  `.dt.date` projects out the calendar date.
-/

/-- A calendar date, ordered lexicographically by (year, month, day). -/
structure Date where
  year : Nat
  month : Nat
  day : Nat
deriving DecidableEq, Repr

/-- A point in time: the calendar date plus a time-of-day component in
seconds.  Only the date part is ever compared by the program. -/
structure DateTime where
  date : Date
  seconds : Nat
deriving DecidableEq, Repr

/-- Python `date` comparison: lexicographic on (year, month, day). -/
def Date.le (a b : Date) : Bool :=
  Nat.blt a.year b.year ||
    (a.year == b.year &&
      (Nat.blt a.month b.month ||
        (a.month == b.month && Nat.ble a.day b.day)))

/-- One row of `airline_data.csv` after the datetime conversions done by
`load_data`.  The derived columns (`route`, `month`, `day_of_week`) are
modelled as functions of the record, since `load_data` computes them
pointwise from these base columns. -/
structure BookingRecord where
  booking_id : Nat
  origin : String
  destination : String
  departure_date : DateTime
  booking_date : DateTime
  price : ℚ
  passengers : Nat
  airline : String
  aircraft_type : String
deriving DecidableEq, Repr

/-- Derived column: `df['route'] = df['origin'] + ' → ' + df['destination']`. -/
def route (r : BookingRecord) : String :=
  r.origin ++ " → " ++ r.destination

/-- Zero-pad a numeral to width `w`, as `strftime` does. -/
def padNum (w n : Nat) : String :=
  let s := toString n
  String.mk (List.replicate (w - s.length) '0') ++ s

/-- Derived column: `df['month'] = df['departure_date'].dt.strftime('%Y-%m')`. -/
def monthLabel (r : BookingRecord) : String :=
  padNum 4 r.departure_date.date.year ++ "-" ++ padNum 2 r.departure_date.date.month

/-- Month-offset table of Sakamoto's weekday algorithm. -/
def sakamotoTable : List Nat := [0, 3, 2, 5, 0, 3, 5, 1, 4, 6, 2, 4]

/-- Weekday of a calendar date, `0` = Sunday, via Sakamoto's algorithm. -/
def weekdayIndex (d : Date) : Nat :=
  let y := if d.month < 3 then d.year - 1 else d.year
  (y + y / 4 - y / 100 + y / 400 + sakamotoTable.getD (d.month - 1) 0 + d.day) % 7

/-- English weekday names indexed by `weekdayIndex` (0 = Sunday). -/
def dayNames : List String :=
  ["Sunday", "Monday", "Tuesday", "Wednesday", "Thursday", "Friday", "Saturday"]

/-- Derived column: `df['day_of_week'] = df['departure_date'].dt.day_name()`. -/
def dayName (r : BookingRecord) : String :=
  dayNames.getD (weekdayIndex r.departure_date.date) ""

/-- The canonical week order used by `identify_high_demand_periods`
(`day_order` in the source). -/
def day_order : List String :=
  ["Monday", "Tuesday", "Wednesday", "Thursday", "Friday", "Saturday", "Sunday"]

/-- Position of a day name in the canonical week order; names outside the
list sort last, matching the NaN-last behaviour of an unmatched pandas
categorical. -/
def dowIdx (s : String) : Nat :=
  day_order.findIdx (fun d => decide (d = s))

/-- Strict lexicographic code-point order on character lists (Python's
string `<`). -/
def dataLt : List Char → List Char → Bool
  | _, [] => false
  | [], _ :: _ => true
  | a :: as, b :: bs =>
    if a.toNat < b.toNat then true
    else if b.toNat < a.toNat then false
    else dataLt as bs

/-- Python string `<`. -/
def strLt (s t : String) : Bool := dataLt s.data t.data

/-- Python string `<=` (the negation of the converse strict order). -/
def strLe (s t : String) : Bool := ! strLt t s

/-- Insert into a sorted list, before the first element not smaller than the
inserted one; the building block of a stable insertion sort. -/
def sortedInsert (le : α → α → Bool) (a : α) : List α → List α
  | [] => [a]
  | b :: l => if le a b then a :: b :: l else b :: sortedInsert le a l

/-- Stable ascending insertion sort: the model of
`DataFrame.sort_values(ascending=True)`. -/
def stableSort (le : α → α → Bool) : List α → List α
  | [] => []
  | a :: l => sortedInsert le a (stableSort le l)

/-- The distinct values of the grouping column in ascending order:
`df.groupby(k)` enumerates its groups in sorted key order. -/
def groupKeys (f : BookingRecord → String) (df : List BookingRecord) : List String :=
  stableSort strLe ((df.map f).dedup)

/-- The group of rows carrying key `k` under the grouping column `f`. -/
def groupOf (f : BookingRecord → String) (df : List BookingRecord) (k : String) :
    List BookingRecord :=
  df.filter (fun r => decide (f r = k))

/-- Pandas `mean` over a column: sum divided by row count. -/
def meanQ (l : List ℚ) : ℚ := l.sum / (l.length : ℚ)

/-- Pandas `min` over a column (only applied to nonempty groups). -/
def qmin : List ℚ → ℚ
  | [] => 0
  | [x] => x
  | x :: y :: l => min x (qmin (y :: l))

/-- Pandas `max` over a column (only applied to nonempty groups). -/
def qmax : List ℚ → ℚ
  | [] => 0
  | [x] => x
  | x :: y :: l => max x (qmax (y :: l))

/-- One row of the `get_popular_routes` result after the column renaming. -/
structure RouteRow where
  Route : String
  Total_Bookings : Nat
  Average_Price : ℚ
  Total_Passengers : Nat
deriving DecidableEq, Repr

/-- The aggregate row of the route group keyed `k`:
`agg({'booking_id': 'count', 'price': 'mean', 'passengers': 'sum'})`. -/
def routeRowOf (df : List BookingRecord) (k : String) : RouteRow :=
  { Route := k
    Total_Bookings := (groupOf route df k).length
    Average_Price := meanQ ((groupOf route df k).map (fun r => r.price))
    Total_Passengers := ((groupOf route df k).map (fun r => r.passengers)).sum }

/-- Comparison used by `sort_values('Total_Bookings')`. -/
def countLe (a b : RouteRow) : Bool := Nat.ble a.Total_Bookings b.Total_Bookings

/-- `get_popular_routes`: group by route, aggregate, sort descending by
booking count (reverse of the stable ascending order, as pandas'
`ascending=False` does), truncate with `head(top_n)`. -/
def get_popular_routes (df : List BookingRecord) (top_n : Nat := 10) : List RouteRow :=
  ((stableSort countLe ((groupKeys route df).map (routeRowOf df))).reverse).take top_n

/-- One row of the `analyze_price_trends` result after flattening the
column names. -/
structure TrendRow where
  Month : String
  Average_Price : ℚ
  Min_Price : ℚ
  Max_Price : ℚ
  Booking_Count : Nat
deriving DecidableEq, Repr

/-- The aggregate row of the month group keyed `k`:
`agg({'price': ['mean', 'min', 'max'], 'booking_id': 'count'})`. -/
def trendRowOf (df : List BookingRecord) (k : String) : TrendRow :=
  { Month := k
    Average_Price := meanQ ((groupOf monthLabel df k).map (fun r => r.price))
    Min_Price := qmin ((groupOf monthLabel df k).map (fun r => r.price))
    Max_Price := qmax ((groupOf monthLabel df k).map (fun r => r.price))
    Booking_Count := (groupOf monthLabel df k).length }

/-- Comparison used by `sort_values('Month')`. -/
def monthLe (a b : TrendRow) : Bool := strLe a.Month b.Month

/-- `analyze_price_trends`: group by month, aggregate, sort ascending by
the month label. -/
def analyze_price_trends (df : List BookingRecord) : List TrendRow :=
  stableSort monthLe ((groupKeys monthLabel df).map (trendRowOf df))

/-- One row of the `identify_high_demand_periods` result after the column
renaming. -/
structure DemandRow where
  Day_of_Week : String
  Total_Bookings : Nat
  Total_Passengers : Nat
  Average_Price : ℚ
deriving DecidableEq, Repr

/-- The aggregate row of the weekday group keyed `k`:
`agg({'booking_id': 'count', 'passengers': 'sum', 'price': 'mean'})`. -/
def demandRowOf (df : List BookingRecord) (k : String) : DemandRow :=
  { Day_of_Week := k
    Total_Bookings := (groupOf dayName df k).length
    Total_Passengers := ((groupOf dayName df k).map (fun r => r.passengers)).sum
    Average_Price := meanQ ((groupOf dayName df k).map (fun r => r.price)) }

/-- Comparison used by `sort_values('Day_of_Week')` after the column has
been made categorical over `day_order`. -/
def dowLe (a b : DemandRow) : Bool := Nat.ble (dowIdx a.Day_of_Week) (dowIdx b.Day_of_Week)

/-- `identify_high_demand_periods`: group by weekday name, aggregate, sort
by position in the canonical week order. -/
def identify_high_demand_periods (df : List BookingRecord) : List DemandRow :=
  stableSort dowLe ((groupKeys dayName df).map (demandRowOf df))

/-- The two failure kinds of the load boundary: the CSV file being absent
(`FileNotFoundError`) and any other parse or conversion failure
(the generic `Exception` branch). -/
inductive LoadError where
  | fileNotFound : LoadError
  | malformed : String → LoadError
deriving DecidableEq, Repr

/-- The `st.error` message shown for each failure kind. -/
def loadErrorMessage : LoadError → String
  | .fileNotFound =>
      "❌ airline_data.csv file not found. Please ensure the data file is in the same directory as this app."
  | .malformed e => "❌ Error loading data: " ++ e

/-- `load_data`: the external source either yields rows or raises one of the
two failure kinds; both are caught, reported as a visible message (first
component) and degrade to the empty table (second component). -/
def load_data (src : Except LoadError (List BookingRecord)) :
    List String × List BookingRecord :=
  match src with
  | .ok df => ([], df)
  | .error e => ([loadErrorMessage e], [])

/-- The sidebar filter inputs: the two selectboxes (with the sentinel value
`"All"`) and the date-range widget, which may hold fewer than two dates
while the user is still picking. -/
structure Criteria where
  selected_origin : String
  selected_destination : String
  date_range : List Date

/-- The boolean mask of the date-range branch of `main`:
`(departure_date.dt.date >= start_date) & (departure_date.dt.date <= end_date)`. -/
def dateMask (start_date end_date : Date) (r : BookingRecord) : Bool :=
  Date.le start_date r.departure_date.date && Date.le r.departure_date.date end_date

/-- The filter block of `main`: start from a copy of the table, then apply
the origin mask, the destination mask, and — only when the widget holds
exactly two dates — the date-range mask. -/
def applyFilters (df : List BookingRecord) (c : Criteria) : List BookingRecord :=
  let fdf := df
  let fdf := if c.selected_origin ≠ "All"
    then fdf.filter (fun r => decide (r.origin = c.selected_origin)) else fdf
  let fdf := if c.selected_destination ≠ "All"
    then fdf.filter (fun r => decide (r.destination = c.selected_destination)) else fdf
  match c.date_range with
  | [start_date, end_date] => fdf.filter (dateMask start_date end_date)
  | _ => fdf

/-- Modelled from the spec's filter contract: a record matches the criteria
when it satisfies every provided constraint, a selectbox on `"All"` and a
date range of fewer than two dates imposing none.  Used to state that the
code's sequential filtering refines this AND-semantics contract. -/
def matchesCriteria (c : Criteria) (r : BookingRecord) : Bool :=
  (decide (c.selected_origin = "All") || decide (r.origin = c.selected_origin)) &&
    ((decide (c.selected_destination = "All") ||
        decide (r.destination = c.selected_destination)) &&
      (match c.date_range with
       | [s, e] => dateMask s e r
       | _ => true))

/-- The data held by one run of `main`: the loaded table and the views
derived from it. -/
structure AppState where
  df : List BookingRecord
  filtered_df : List BookingRecord
  popular_routes : List RouteRow
  price_trends : List TrendRow
  demand_analysis : List DemandRow

/-- One re-run of the dashboard body: recompute the filtered view and the
three aggregate views from the loaded table and the current criteria.  The
loaded table itself is only read. -/
def runDashboard (s : AppState) (c : Criteria) : AppState :=
  let fdf := applyFilters s.df c
  { s with
    filtered_df := fdf
    popular_routes := get_popular_routes fdf 10
    price_trends := analyze_price_trends fdf
    demand_analysis := identify_high_demand_periods fdf }

/-- The tie-break portion of the popular-routes claim: whenever two rows
with equal booking counts appear in this order in the output, they appear
in the same relative order in the grouped table (`route_popularity` before
its sort).  The grouped table has exactly one row per key, in `groupKeys`
order, so relative order of its rows is relative order of their routes in
`groupKeys route df`. -/
def tiesFollowGroupingOrder (df : List BookingRecord) (top_n : Nat) : Prop :=
  (get_popular_routes df top_n).Pairwise (fun a b =>
    a.Total_Bookings = b.Total_Bookings →
      [a.Route, b.Route].Sublist (groupKeys route df))

/-- An example booking on route `A → B`, departing Monday 2024-01-01. -/
def exRec1 : BookingRecord :=
  { booking_id := 1, origin := "A", destination := "B"
    departure_date := ⟨⟨2024, 1, 1⟩, 0⟩, booking_date := ⟨⟨2023, 12, 20⟩, 0⟩
    price := 100, passengers := 2, airline := "X", aircraft_type := "737" }

/-- An example booking on route `A → C`, departing Tuesday 2024-01-02 with a
nonzero time-of-day component. -/
def exRec2 : BookingRecord :=
  { booking_id := 2, origin := "A", destination := "C"
    departure_date := ⟨⟨2024, 1, 2⟩, 3600⟩, booking_date := ⟨⟨2023, 12, 21⟩, 0⟩
    price := 300, passengers := 1, airline := "Y", aircraft_type := "A320" }

/-- A two-row example table: two bookings out of city `A`, one to `B` and
one to `C`, giving two routes with one booking each. -/
def exDf : List BookingRecord := [exRec1, exRec2]

/-! ### Order facts about the code-point string comparison -/

theorem char_eq_of_toNat_eq {a b : Char} (h : a.toNat = b.toNat) : a = b :=
  Char.ext (UInt32.ext h)

theorem dataLt_irrefl (l : List Char) : dataLt l l = false := by
  induction l with
  | nil => rfl
  | cons a t ih => simp [dataLt, ih]

theorem dataLt_asymm : ∀ {l₁ l₂ : List Char},
    dataLt l₁ l₂ = true → dataLt l₂ l₁ = false
  | [], [] => by simp [dataLt]
  | [], _ :: _ => fun _ => by simp [dataLt]
  | _ :: _, [] => by simp [dataLt]
  | a :: as, b :: bs => fun h => by
      rcases Nat.lt_trichotomy a.toNat b.toNat with hab | hab | hab
      · simp [dataLt, hab, Nat.lt_asymm hab]
      · have h' : dataLt as bs = true := by simpa [dataLt, hab] using h
        simp [dataLt, hab, dataLt_asymm h']
      · simp [dataLt, hab, Nat.lt_asymm hab] at h

theorem dataLt_connex : ∀ {l₁ l₂ : List Char},
    dataLt l₁ l₂ = false → dataLt l₂ l₁ = false → l₁ = l₂
  | [], [] => fun _ _ => rfl
  | [], _ :: _ => fun h _ => by simp [dataLt] at h
  | _ :: _, [] => fun _ h => by simp [dataLt] at h
  | a :: as, b :: bs => fun h₁ h₂ => by
      rcases Nat.lt_trichotomy a.toNat b.toNat with hab | hab | hab
      · simp [dataLt, hab] at h₁
      · have h₁' : dataLt as bs = false := by simpa [dataLt, hab] using h₁
        have h₂' : dataLt bs as = false := by simpa [dataLt, hab] using h₂
        rw [char_eq_of_toNat_eq hab, dataLt_connex h₁' h₂']
      · simp [dataLt, hab] at h₂

theorem dataLt_trans : ∀ {l₁ l₂ l₃ : List Char},
    dataLt l₁ l₂ = true → dataLt l₂ l₃ = true → dataLt l₁ l₃ = true
  | _, [], _ => fun h _ => by simp [dataLt] at h
  | _, _ :: _, [] => fun _ h => by simp [dataLt] at h
  | [], _ :: _, _ :: _ => fun _ _ => by simp [dataLt]
  | a :: as, b :: bs, c :: cs => fun h₁ h₂ => by
      rcases Nat.lt_trichotomy a.toNat b.toNat with hab | hab | hab
      · rcases Nat.lt_trichotomy b.toNat c.toNat with hbc | hbc | hbc
        · simp [dataLt, Nat.lt_trans hab hbc]
        · simp [dataLt, hbc ▸ hab]
        · simp [dataLt, hbc, Nat.lt_asymm hbc] at h₂
      · rcases Nat.lt_trichotomy b.toNat c.toNat with hbc | hbc | hbc
        · simp [dataLt, hab ▸ hbc]
        · have h₁' : dataLt as bs = true := by simpa [dataLt, hab] using h₁
          have h₂' : dataLt bs cs = true := by simpa [dataLt, hbc] using h₂
          simp [dataLt, hab.trans hbc, Nat.lt_irrefl, dataLt_trans h₁' h₂']
        · simp [dataLt, hbc, Nat.lt_asymm hbc] at h₂
      · simp [dataLt, hab, Nat.lt_asymm hab] at h₁

theorem strLe_total (s t : String) : (strLe s t || strLe t s) = true := by
  by_cases h : dataLt t.data s.data
  · simp [strLe, strLt, dataLt_asymm h]
  · simp [strLe, strLt, h]

theorem strLe_trans {s t u : String}
    (h₁ : strLe s t = true) (h₂ : strLe t u = true) : strLe s u = true := by
  simp only [strLe, strLt, Bool.not_eq_true'] at h₁ h₂ ⊢
  by_cases hst : dataLt s.data t.data = true
  · by_cases hus : dataLt u.data s.data = true
    · exact absurd (dataLt_trans hus hst) (by simp [h₂])
    · simpa using hus
  · have : s.data = t.data := dataLt_connex (Bool.not_eq_true _ ▸ hst) h₁
    rw [this]
    exact h₂

theorem strLe_antisymm {s t : String}
    (h₁ : strLe s t = true) (h₂ : strLe t s = true) : s = t := by
  simp only [strLe, strLt, Bool.not_eq_true'] at h₁ h₂
  have hdata : s.data = t.data := dataLt_connex h₂ h₁
  cases s with
  | mk d₁ => cases t with
    | mk d₂ => exact congrArg String.mk hdata

theorem strLt_of_not_strLe {s t : String} (h : ¬ strLe t s = true) :
    strLt s t = true := by
  simpa [strLe, Bool.not_eq_true'] using h

/-! ### The stable ascending sort and its properties -/

theorem sortedInsert_perm (le : α → α → Bool) (a : α) (l : List α) :
    (sortedInsert le a l).Perm (a :: l) := by
  induction l with
  | nil => exact List.Perm.refl _
  | cons b t ih =>
    rw [sortedInsert]
    by_cases h : le a b
    · rw [if_pos h]
    · rw [if_neg h]
      exact (ih.cons b).trans (List.Perm.swap a b t)

theorem stableSort_perm (le : α → α → Bool) (l : List α) :
    (stableSort le l).Perm l := by
  induction l with
  | nil => exact List.Perm.refl _
  | cons a t ih =>
    exact (sortedInsert_perm le a (stableSort le t)).trans (ih.cons a)

theorem pairwise_sortedInsert (le : α → α → Bool) (lt2 : α → α → Prop)
    (htot : ∀ a b, (le a b || le b a) = true)
    (htr : ∀ a b c, le a b = true → le b c = true → le a c = true)
    (a : α) (l : List α)
    (hl : l.Pairwise fun x y => le x y = true ∧ (le y x = true → lt2 x y))
    (ha : ∀ y ∈ l, lt2 a y) :
    (sortedInsert le a l).Pairwise
      fun x y => le x y = true ∧ (le y x = true → lt2 x y) := by
  induction l with
  | nil => simp [sortedInsert]
  | cons b t ih =>
    rw [sortedInsert]
    rcases List.pairwise_cons.mp hl with ⟨hb, ht⟩
    by_cases h : le a b
    · rw [if_pos h]
      refine List.pairwise_cons.mpr ⟨?_, hl⟩
      intro z hz
      rcases List.mem_cons.mp hz with rfl | hz'
      · exact ⟨h, fun _ => ha z (List.mem_cons_self _ _)⟩
      · exact ⟨htr a b z h (hb z hz').1, fun _ => ha z (List.mem_cons_of_mem b hz')⟩
    · rw [if_neg h]
      have hba : le b a = true := by
        rcases Bool.or_eq_true_iff.mp (htot a b) with hab | hba
        · exact absurd hab h
        · exact hba
      refine List.pairwise_cons.mpr ⟨?_, ?_⟩
      · intro z hz
        rcases List.mem_cons.mp ((sortedInsert_perm le a t).mem_iff.mp hz) with rfl | hz'
        · exact ⟨hba, fun hab => absurd hab h⟩
        · exact hb z hz'
      · exact ih ht (fun y hy => ha y (List.mem_cons_of_mem b hy))

theorem pairwise_stableSort (le : α → α → Bool) (lt2 : α → α → Prop)
    (htot : ∀ a b, (le a b || le b a) = true)
    (htr : ∀ a b c, le a b = true → le b c = true → le a c = true)
    (l : List α) (hl : l.Pairwise lt2) :
    (stableSort le l).Pairwise
      fun x y => le x y = true ∧ (le y x = true → lt2 x y) := by
  induction l with
  | nil => simp [stableSort]
  | cons a t ih =>
    rcases List.pairwise_cons.mp hl with ⟨ha, ht⟩
    exact pairwise_sortedInsert le lt2 htot htr a _ (ih ht)
      (fun y hy => ha y ((stableSort_perm le t).mem_iff.mp hy))

/-! ### Grouping facts -/

theorem groupKeys_perm_dedup (f : BookingRecord → String) (df : List BookingRecord) :
    (groupKeys f df).Perm ((df.map f).dedup) :=
  stableSort_perm strLe ((df.map f).dedup)

theorem mem_groupKeys {f : BookingRecord → String} {df : List BookingRecord}
    {k : String} : k ∈ groupKeys f df ↔ k ∈ df.map f := by
  rw [(groupKeys_perm_dedup f df).mem_iff, List.mem_dedup]

theorem groupKeys_nodup (f : BookingRecord → String) (df : List BookingRecord) :
    (groupKeys f df).Nodup :=
  ((groupKeys_perm_dedup f df).symm.nodup (List.nodup_dedup _))

theorem groupKeys_pairwise_strLt (f : BookingRecord → String)
    (df : List BookingRecord) :
    (groupKeys f df).Pairwise fun a b => strLt a b = true := by
  have hnd : ((df.map f).dedup).Pairwise (fun a b : String => a ≠ b) :=
    List.nodup_dedup _
  have h := pairwise_stableSort strLe (fun a b : String => a ≠ b)
    strLe_total (fun _ _ _ => strLe_trans) _ hnd
  refine h.imp ?_
  rintro a b ⟨hle, htie⟩
  by_cases hba : strLe b a = true
  · exact absurd (strLe_antisymm hle hba) (htie hba)
  · exact strLt_of_not_strLe hba

theorem groupOf_ne_nil {f : BookingRecord → String} {df : List BookingRecord}
    {k : String} (hk : k ∈ df.map f) : groupOf f df k ≠ [] := by
  rcases List.mem_map.mp hk with ⟨r, hr, rfl⟩
  exact List.ne_nil_of_mem (List.mem_filter.mpr ⟨hr, by simp⟩)

/-! ### Partition of the row count over the groups -/

theorem filter_length_cons (p : α → Bool) (a : α) (l : List α) :
    ((a :: l).filter p).length = (if p a then 1 else 0) + (l.filter p).length := by
  by_cases h : p a
  · simp [List.filter_cons, h]
    omega
  · simp [List.filter_cons, h]

theorem sum_indicator_eq_one {x : String} {keys : List String}
    (hnd : keys.Nodup) (hx : x ∈ keys) :
    (keys.map fun k => if x = k then 1 else 0).sum = 1 := by
  induction keys with
  | nil => cases hx
  | cons k ks ih =>
    rcases List.nodup_cons.mp hnd with ⟨hk, hnd'⟩
    rcases List.mem_cons.mp hx with rfl | hx'
    · have hz : (ks.map fun k' => if x = k' then 1 else 0).sum = 0 :=
        List.sum_eq_zero (by
          intro n hn
          rcases List.mem_map.mp hn with ⟨k', hk', rfl⟩
          simp [show x ≠ k' from fun h => hk (h ▸ hk')])
      simp [hz]
    · have hxk : x ≠ k := fun h => hk (h ▸ hx')
      simp [hxk, ih hnd' hx']

theorem sum_group_lengths (f : BookingRecord → String) (keys : List String)
    (df : List BookingRecord) (hnd : keys.Nodup)
    (hcov : ∀ r ∈ df, f r ∈ keys) :
    (keys.map fun k => (groupOf f df k).length).sum = df.length := by
  induction df with
  | nil => simp [groupOf]
  | cons r rest ih =>
    have hstep : (fun k => (groupOf f (r :: rest) k).length)
        = fun k => (if f r = k then 1 else 0) + (groupOf f rest k).length := by
      funext k
      unfold groupOf
      rw [filter_length_cons]
      by_cases h : f r = k <;> simp [h]
    rw [hstep, List.sum_map_add, ih (fun r' hr' => hcov r' (List.mem_cons_of_mem r hr')),
      sum_indicator_eq_one hnd (hcov r (List.mem_cons_self r rest))]
    simp [Nat.add_comm]

/-! ### Bounds on the mean of a nonempty column -/

theorem qmin_le_mem : ∀ {l : List ℚ} {x : ℚ}, x ∈ l → qmin l ≤ x
  | [], x, hx => absurd hx (List.not_mem_nil x)
  | [y], x, hx => by
      rcases List.mem_singleton.mp hx with rfl
      exact le_of_eq rfl
  | y :: z :: t, x, hx => by
      rcases List.mem_cons.mp hx with rfl | hx'
      · exact min_le_left _ _
      · exact le_trans (min_le_right _ _) (qmin_le_mem hx')

theorem mem_le_qmax : ∀ {l : List ℚ} {x : ℚ}, x ∈ l → x ≤ qmax l
  | [], x, hx => absurd hx (List.not_mem_nil x)
  | [y], x, hx => by
      rcases List.mem_singleton.mp hx with rfl
      exact le_of_eq rfl
  | y :: z :: t, x, hx => by
      rcases List.mem_cons.mp hx with rfl | hx'
      · exact le_max_left _ _
      · exact le_trans (mem_le_qmax hx') (le_max_right _ _)

theorem qmin_le_meanQ {l : List ℚ} (h : l ≠ []) : qmin l ≤ meanQ l := by
  have hpos : 0 < (l.length : ℚ) := by
    exact_mod_cast List.length_pos.mpr h
  rw [meanQ, le_div_iff₀ hpos]
  calc qmin l * (l.length : ℚ) = l.length • qmin l := by rw [nsmul_eq_mul, mul_comm]
  _ ≤ l.sum := List.card_nsmul_le_sum l (qmin l) (fun _ hx => qmin_le_mem hx)

theorem meanQ_le_qmax {l : List ℚ} (h : l ≠ []) : meanQ l ≤ qmax l := by
  have hpos : 0 < (l.length : ℚ) := by
    exact_mod_cast List.length_pos.mpr h
  rw [meanQ, div_le_iff₀ hpos]
  calc l.sum ≤ l.length • qmax l :=
        List.sum_le_card_nsmul l (qmax l) (fun _ hx => mem_le_qmax hx)
  _ = qmax l * (l.length : ℚ) := by rw [nsmul_eq_mul, mul_comm]

/-! ### Nat comparator facts -/

theorem natBle_total (a b : Nat) : (Nat.ble a b || Nat.ble b a) = true := by
  rcases Nat.le_total a b with h | h <;> simp [Nat.ble_eq, h]

theorem natBle_trans {a b c : Nat}
    (h₁ : Nat.ble a b = true) (h₂ : Nat.ble b c = true) : Nat.ble a c = true := by
  simp only [Nat.ble_eq] at h₁ h₂ ⊢
  exact Nat.le_trans h₁ h₂

/-! ### The popular-routes pipeline -/

theorem popularRows_pairwise (df : List BookingRecord) :
    ((groupKeys route df).map (routeRowOf df)).Pairwise
      fun a b => strLt a.Route b.Route = true :=
  List.pairwise_map.mpr (groupKeys_pairwise_strLt route df)

theorem popular_routes_sorted (df : List BookingRecord) (top_n : Nat) :
    (get_popular_routes df top_n).Pairwise fun a b =>
      b.Total_Bookings < a.Total_Bookings ∨
        (a.Total_Bookings = b.Total_Bookings ∧ strLt b.Route a.Route = true) := by
  have hs := pairwise_stableSort countLe
    (fun a b : RouteRow => strLt a.Route b.Route = true)
    (fun a b => natBle_total _ _) (fun _ _ _ => natBle_trans) _
    (popularRows_pairwise df)
  have hrev := List.pairwise_reverse.mpr hs
  have htake := List.Pairwise.sublist (List.take_sublist top_n _) hrev
  refine htake.imp ?_
  rintro a b ⟨hble, htie⟩
  have hle : b.Total_Bookings ≤ a.Total_Bookings := by
    simpa [countLe, Nat.ble_eq] using hble
  rcases Nat.eq_or_lt_of_le hle with heq | hlt
  · exact Or.inr ⟨heq.symm, htie (by simp [countLe, Nat.ble_eq, heq])⟩
  · exact Or.inl hlt

theorem popular_routes_mem (df : List BookingRecord) (top_n : Nat) :
    ∀ row ∈ get_popular_routes df top_n,
      row = routeRowOf df row.Route ∧ row.Route ∈ df.map route := by
  intro row hrow
  have h2 := (List.take_sublist top_n _).subset hrow
  have h3 := (List.reverse_perm _).mem_iff.mp h2
  have h1 : row ∈ (groupKeys route df).map (routeRowOf df) :=
    (stableSort_perm countLe _).mem_iff.mp h3
  rcases List.mem_map.mp h1 with ⟨k, hk, rfl⟩
  exact ⟨rfl, mem_groupKeys.mp hk⟩

theorem popular_routes_length (df : List BookingRecord) (top_n : Nat) :
    (get_popular_routes df top_n).length
      = min top_n ((df.map route).dedup).length := by
  unfold get_popular_routes
  rw [List.length_take, List.length_reverse, (stableSort_perm _ _).length_eq,
    List.length_map, (groupKeys_perm_dedup route df).length_eq]

theorem popular_routes_sum_le (df : List BookingRecord) (top_n : Nat) :
    ((get_popular_routes df top_n).map fun row => row.Total_Bookings).sum
      ≤ df.length := by
  have hfull : (((groupKeys route df).map (routeRowOf df)).map
      fun row => row.Total_Bookings).sum = df.length := by
    rw [List.map_map]
    exact sum_group_lengths route _ df (groupKeys_nodup route df)
      (fun r hr => mem_groupKeys.mpr (List.mem_map_of_mem route hr))
  have hsub : ((get_popular_routes df top_n).map fun row => row.Total_Bookings).Sublist
      (((stableSort countLe ((groupKeys route df).map (routeRowOf df))).reverse).map
        fun row => row.Total_Bookings) :=
    (List.take_sublist top_n _).map _
  have hperm : ((((stableSort countLe
        ((groupKeys route df).map (routeRowOf df))).reverse).map
          fun row => row.Total_Bookings)).sum
      = (((groupKeys route df).map (routeRowOf df)).map
          fun row => row.Total_Bookings).sum :=
    (((List.reverse_perm _).trans (stableSort_perm _ _)).map _).sum_eq
  calc ((get_popular_routes df top_n).map fun row => row.Total_Bookings).sum
      ≤ _ := hsub.sum_le_sum (fun a _ => Nat.zero_le a)
  _ = df.length := by rw [hperm, hfull]

/-! ### The price-trend pipeline -/

theorem trendRows_pairwise (df : List BookingRecord) :
    ((groupKeys monthLabel df).map (trendRowOf df)).Pairwise
      fun a b => strLt a.Month b.Month = true :=
  List.pairwise_map.mpr (groupKeys_pairwise_strLt monthLabel df)

theorem price_trends_sorted (df : List BookingRecord) :
    (analyze_price_trends df).Pairwise
      fun a b => strLt a.Month b.Month = true := by
  have hs := pairwise_stableSort monthLe
    (fun a b : TrendRow => strLt a.Month b.Month = true)
    (fun a b => strLe_total a.Month b.Month) (fun _ _ _ => strLe_trans) _
    (trendRows_pairwise df)
  refine hs.imp ?_
  rintro a b ⟨hle, htie⟩
  by_cases hba : monthLe b a = true
  · exact htie hba
  · exact strLt_of_not_strLe hba

theorem price_trends_mem (df : List BookingRecord) :
    ∀ row ∈ analyze_price_trends df,
      row = trendRowOf df row.Month ∧ row.Month ∈ df.map monthLabel := by
  intro row hrow
  have h1 : row ∈ (groupKeys monthLabel df).map (trendRowOf df) :=
    (stableSort_perm monthLe _).mem_iff.mp hrow
  rcases List.mem_map.mp h1 with ⟨k, hk, rfl⟩
  exact ⟨rfl, mem_groupKeys.mp hk⟩

theorem trendRow_bounds {df : List BookingRecord} {k : String}
    (hk : k ∈ df.map monthLabel) :
    (trendRowOf df k).Min_Price ≤ (trendRowOf df k).Average_Price ∧
      (trendRowOf df k).Average_Price ≤ (trendRowOf df k).Max_Price := by
  have hne : (groupOf monthLabel df k).map (fun r => r.price) ≠ [] := by
    intro h
    exact groupOf_ne_nil hk (by simpa using h)
  exact ⟨qmin_le_meanQ hne, meanQ_le_qmax hne⟩

/-! ### The weekday-demand pipeline -/

theorem demandRows_pairwise (df : List BookingRecord) :
    ((groupKeys dayName df).map (demandRowOf df)).Pairwise
      fun a b => strLt a.Day_of_Week b.Day_of_Week = true :=
  List.pairwise_map.mpr (groupKeys_pairwise_strLt dayName df)

theorem dayName_mem_day_order (r : BookingRecord) : dayName r ∈ day_order := by
  have h7 : weekdayIndex r.departure_date.date < 7 := by
    unfold weekdayIndex
    exact Nat.mod_lt _ (by omega)
  unfold dayName
  generalize weekdayIndex r.departure_date.date = i at h7 ⊢
  interval_cases i <;> decide

theorem dowIdx_inj {s t : String} (hs : s ∈ day_order) (ht : t ∈ day_order)
    (h : dowIdx s = dowIdx t) : s = t := by
  fin_cases hs <;> fin_cases ht <;> first | rfl | (exfalso; revert h; decide)

theorem demand_mem (df : List BookingRecord) :
    ∀ row ∈ identify_high_demand_periods df,
      row = demandRowOf df row.Day_of_Week ∧ row.Day_of_Week ∈ df.map dayName := by
  intro row hrow
  have h1 : row ∈ (groupKeys dayName df).map (demandRowOf df) :=
    (stableSort_perm dowLe _).mem_iff.mp hrow
  rcases List.mem_map.mp h1 with ⟨k, hk, rfl⟩
  exact ⟨rfl, mem_groupKeys.mp hk⟩

theorem mem_day_order_of_mem_map {df : List BookingRecord} {d : String}
    (hd : d ∈ df.map dayName) : d ∈ day_order := by
  rcases List.mem_map.mp hd with ⟨r, _, rfl⟩
  exact dayName_mem_day_order r

theorem demand_sorted (df : List BookingRecord) :
    (identify_high_demand_periods df).Pairwise
      fun a b => dowIdx a.Day_of_Week < dowIdx b.Day_of_Week := by
  have hs := pairwise_stableSort dowLe
    (fun a b : DemandRow => strLt a.Day_of_Week b.Day_of_Week = true)
    (fun a b => natBle_total _ _) (fun _ _ _ => natBle_trans) _
    (demandRows_pairwise df)
  refine hs.imp_of_mem ?_
  intro a b ha hb hab
  rcases hab with ⟨hble, htie⟩
  have hda : a.Day_of_Week ∈ day_order :=
    mem_day_order_of_mem_map (demand_mem df a ha).2
  have hdb : b.Day_of_Week ∈ day_order :=
    mem_day_order_of_mem_map (demand_mem df b hb).2
  have hle : dowIdx a.Day_of_Week ≤ dowIdx b.Day_of_Week := by
    simpa [dowLe, Nat.ble_eq] using hble
  rcases Nat.eq_or_lt_of_le hle with heq | hlt
  · have hsame : a.Day_of_Week = b.Day_of_Week := dowIdx_inj hda hdb heq
    have hstr : strLt a.Day_of_Week b.Day_of_Week = true :=
      htie (by simp [dowLe, Nat.ble_eq, heq])
    rw [hsame] at hstr
    exact absurd hstr (by simp [strLt, dataLt_irrefl])
  · exact hlt

theorem demand_complete (df : List BookingRecord) :
    ∀ d ∈ df.map dayName,
      ∃ row ∈ identify_high_demand_periods df, row.Day_of_Week = d := by
  intro d hd
  refine ⟨demandRowOf df d, ?_, rfl⟩
  exact (stableSort_perm dowLe _).mem_iff.mpr
    (List.mem_map_of_mem _ (mem_groupKeys.mpr hd))

/-! ### The filter block -/

theorem applyFilters_eq_filter (df : List BookingRecord) (c : Criteria) :
    applyFilters df c = df.filter (matchesCriteria c) := by
  unfold applyFilters matchesCriteria
  by_cases ho : c.selected_origin = "All" <;>
    by_cases hd : c.selected_destination = "All" <;>
      rcases hdr : c.date_range with _ | ⟨s, _ | ⟨e, _ | ⟨x, rest⟩⟩⟩ <;>
        simp [ho, hd, List.filter_filter, Bool.and_comm, Bool.and_assoc,
          Bool.and_left_comm]

/-! ### The claims -/

/-- C1, counterexample: on a two-route table with tied booking counts the
popular-routes output does not keep the rows in their grouping order — the
descending sort reverses tied rows, so the claim's stable tie-break fails. -/
theorem c1_popular_routes_counterexample : ¬ tiesFollowGroupingOrder exDf 10 := by
  intro h
  have hout : get_popular_routes exDf 10 =
      [routeRowOf exDf "A → C", routeRowOf exDf "A → B"] := rfl
  unfold tiesFollowGroupingOrder at h
  rw [hout] at h
  rcases List.pairwise_cons.mp h with ⟨hpair, _⟩
  have hsub := hpair (routeRowOf exDf "A → B") (List.mem_singleton.mpr rfl)
    (by decide)
  exact absurd hsub (by decide)

/-- C1, amended: `get_popular_routes` groups by route, computes per route
the booking count, mean price and passenger sum, sorts descending by count
and truncates to the top `top_n` rows; among rows with equal counts the
rows appear in the REVERSE of the grouping order (groups are formed in
ascending route order, so tied rows come out in descending route order),
because pandas realises the descending sort by reversing the ascending
order. -/
theorem c1_popular_routes_amended (df : List BookingRecord) (top_n : Nat) :
    (get_popular_routes df top_n).Pairwise (fun a b =>
        b.Total_Bookings < a.Total_Bookings ∨
          (a.Total_Bookings = b.Total_Bookings ∧ strLt b.Route a.Route = true)) ∧
    (get_popular_routes df top_n).length
        = min top_n ((df.map route).dedup).length ∧
    ∀ row ∈ get_popular_routes df top_n,
      row = routeRowOf df row.Route ∧ row.Route ∈ df.map route :=
  ⟨popular_routes_sorted df top_n, popular_routes_length df top_n,
    popular_routes_mem df top_n⟩

/-- Witness for the amended C1 at the concrete two-route table. -/
theorem c1_popular_routes_amended_witness :
    routeRowOf exDf "A → C" = routeRowOf exDf (routeRowOf exDf "A → C").Route ∧
      (routeRowOf exDf "A → C").Route ∈ exDf.map route :=
  (c1_popular_routes_amended exDf 10).2.2 (routeRowOf exDf "A → C")
    (List.Mem.head _)

/-- C2: the filter block of `main` returns exactly the records matching all
provided criteria (AND semantics, a criterion on `"All"` or an incomplete
date range imposing no constraint): it equals a single pass of
`List.filter` with the conjunction predicate, hence the output is a subset
of the input preserving its order, and the empty input yields the empty
result. -/
theorem c2_filter_and_semantics (df : List BookingRecord) (c : Criteria) :
    applyFilters df c = df.filter (matchesCriteria c) ∧
      (applyFilters df c).Sublist df ∧ applyFilters [] c = [] := by
  refine ⟨applyFilters_eq_filter df c, ?_, ?_⟩
  · rw [applyFilters_eq_filter]
    exact List.filter_sublist df
  · rw [applyFilters_eq_filter]
    rfl

/-- C3: for every criteria combination the filtered result is a sublist
(subset in order) of the original table, and applying the same filter again
leaves it unchanged. -/
theorem c3_filter_idempotent (df : List BookingRecord) (c : Criteria) :
    (applyFilters df c).Sublist df ∧
      applyFilters (applyFilters df c) c = applyFilters df c := by
  constructor
  · rw [applyFilters_eq_filter]
    exact List.filter_sublist df
  · rw [applyFilters_eq_filter (applyFilters df c) c, applyFilters_eq_filter df c,
      List.filter_filter]
    exact List.filter_congr (fun r _ => by cases matchesCriteria c r <;> rfl)

/-- C4: `analyze_price_trends` groups by month, computes per month the mean,
min and max price and the booking count, and returns the rows in strictly
increasing month-label order; in every row the minimum price is at most the
mean and the mean at most the maximum. -/
theorem c4_price_trends (df : List BookingRecord) :
    (analyze_price_trends df).Pairwise
        (fun a b => strLt a.Month b.Month = true) ∧
    ∀ row ∈ analyze_price_trends df,
      row = trendRowOf df row.Month ∧ row.Month ∈ df.map monthLabel ∧
        row.Min_Price ≤ row.Average_Price ∧
          row.Average_Price ≤ row.Max_Price := by
  refine ⟨price_trends_sorted df, ?_⟩
  intro row hrow
  rcases price_trends_mem df row hrow with ⟨heq, hmem⟩
  rcases trendRow_bounds hmem with ⟨h1, h2⟩
  exact ⟨heq, hmem, by rw [heq]; exact h1, by rw [heq]; exact h2⟩

/-- Witness for C4 at the concrete table, whose single month is 2024-01. -/
theorem c4_price_trends_witness :
    trendRowOf exDf "2024-01" = trendRowOf exDf (trendRowOf exDf "2024-01").Month ∧
      (trendRowOf exDf "2024-01").Month ∈ exDf.map monthLabel ∧
      (trendRowOf exDf "2024-01").Min_Price ≤ (trendRowOf exDf "2024-01").Average_Price ∧
      (trendRowOf exDf "2024-01").Average_Price ≤ (trendRowOf exDf "2024-01").Max_Price :=
  (c4_price_trends exDf).2 (trendRowOf exDf "2024-01") (List.Mem.head _)

/-- C5: `identify_high_demand_periods` groups by weekday name, computes per
day the booking count, passenger sum and mean price, and returns the rows
in strictly increasing canonical week order (Monday through Sunday); every
output day occurs in the input and every input day occurs in the output, so
absent days are omitted. -/
theorem c5_weekday_demand (df : List BookingRecord) :
    (identify_high_demand_periods df).Pairwise
        (fun a b => dowIdx a.Day_of_Week < dowIdx b.Day_of_Week) ∧
    (∀ row ∈ identify_high_demand_periods df,
        row = demandRowOf df row.Day_of_Week ∧ row.Day_of_Week ∈ df.map dayName) ∧
    ∀ d ∈ df.map dayName,
      ∃ row ∈ identify_high_demand_periods df, row.Day_of_Week = d :=
  ⟨demand_sorted df, demand_mem df, demand_complete df⟩

/-- Witness for C5 at the concrete table, whose first weekday is Monday. -/
theorem c5_weekday_demand_witness :
    (demandRowOf exDf "Monday"
        = demandRowOf exDf (demandRowOf exDf "Monday").Day_of_Week ∧
      (demandRowOf exDf "Monday").Day_of_Week ∈ exDf.map dayName) ∧
    ∃ row ∈ identify_high_demand_periods exDf, row.Day_of_Week = "Tuesday" :=
  ⟨(c5_weekday_demand exDf).2.1 (demandRowOf exDf "Monday") (List.Mem.head _),
    (c5_weekday_demand exDf).2.2 "Tuesday" (by decide)⟩

/-- C6: the three aggregators map the empty table (with the full schema) to
the empty result, with no exceptional behaviour — in the embedding, each is
a total function whose value at `[]` is `[]`. -/
theorem c6_empty_aggregators :
    (∀ top_n : Nat, get_popular_routes [] top_n = []) ∧
      analyze_price_trends [] = [] ∧ identify_high_demand_periods [] = [] := by
  refine ⟨fun top_n => ?_, rfl, rfl⟩
  exact List.take_nil

/-- C7: `load_data` catches both failure kinds (missing file, parse error),
returns the empty collection, and reports a nonempty visible message; a
successful load emits no message and returns the rows.  The model is a
total function, so no exception propagates. -/
theorem c7_load_failure :
    (∀ e : LoadError, load_data (Except.error e) = ([loadErrorMessage e], [])) ∧
    (∀ e : LoadError, loadErrorMessage e ≠ "") ∧
    ∀ rows : List BookingRecord, load_data (Except.ok rows) = ([], rows) := by
  refine ⟨fun e => rfl, fun e => ?_, fun rows => rfl⟩
  cases e with
  | fileNotFound => decide
  | malformed m =>
      intro hcontra
      have hd : ("❌ Error loading data: " ++ m).data = "".data :=
        congrArg String.data hcontra
      rw [String.data_append] at hd
      rcases List.append_eq_nil.mp hd with ⟨h1, _⟩
      exact absurd h1 (by decide)

/-- Witness for C7 at the missing-file failure kind. -/
theorem c7_load_failure_witness :
    load_data (Except.error LoadError.fileNotFound)
        = ([loadErrorMessage LoadError.fileNotFound], []) ∧
      loadErrorMessage LoadError.fileNotFound ≠ "" :=
  ⟨c7_load_failure.1 LoadError.fileNotFound,
    c7_load_failure.2.1 LoadError.fileNotFound⟩

/-- C8: one dashboard run only reads the loaded table: the source table of
the resulting state is unchanged, and the filtered and aggregate views are
fresh values derived from it. -/
theorem c8_source_immutable (s : AppState) (c : Criteria) :
    (runDashboard s c).df = s.df ∧
    (runDashboard s c).filtered_df = applyFilters s.df c ∧
    (runDashboard s c).popular_routes = get_popular_routes (applyFilters s.df c) 10 ∧
    (runDashboard s c).price_trends = analyze_price_trends (applyFilters s.df c) ∧
    (runDashboard s c).demand_analysis
        = identify_high_demand_periods (applyFilters s.df c) :=
  ⟨rfl, rfl, rfl, rfl, rfl⟩

/-- C9: the Total_Bookings column of the popular-routes output sums to at
most the row count of the input table, for every table and every `top_n`. -/
theorem c9_bookings_sum_le (df : List BookingRecord) (top_n : Nat) :
    ((get_popular_routes df top_n).map fun row => row.Total_Bookings).sum
      ≤ df.length :=
  popular_routes_sum_le df top_n

/-- C10: the date-range criterion is applied only when the widget holds
exactly two dates (otherwise no date constraint at all); when applied it
keeps exactly the records whose departure calendar date lies inclusively
between the two dates, and the mask depends only on the calendar date,
never on the time-of-day component. -/
theorem c10_date_range_filter (df : List BookingRecord) (o d : String) :
    (∀ dr : List Date, dr.length ≠ 2 →
        applyFilters df ⟨o, d, dr⟩ = applyFilters df ⟨o, d, []⟩) ∧
    (∀ s e r, r ∈ applyFilters df ⟨o, d, [s, e]⟩ ↔
        r ∈ applyFilters df ⟨o, d, []⟩ ∧
          Date.le s r.departure_date.date = true ∧
          Date.le r.departure_date.date e = true) ∧
    ∀ s e r₁ r₂, r₁.departure_date.date = r₂.departure_date.date →
      dateMask s e r₁ = dateMask s e r₂ := by
  refine ⟨?_, ?_, ?_⟩
  · intro dr hdr
    rcases dr with _ | ⟨s, _ | ⟨e, _ | ⟨x, rest⟩⟩⟩
    · rfl
    · rfl
    · simp at hdr
    · rfl
  · intro s e r
    have hstep : applyFilters df ⟨o, d, [s, e]⟩
        = (applyFilters df ⟨o, d, []⟩).filter (dateMask s e) := rfl
    rw [hstep, List.mem_filter]
    simp only [dateMask, Bool.and_eq_true]
  · intro s e r₁ r₂ h
    simp only [dateMask, h]

/-- Witness for C10: a one-date range imposes no constraint, an inclusive
two-date range keeps the Monday record, and the mask ignores seconds. -/
theorem c10_date_range_filter_witness :
    (applyFilters exDf ⟨"All", "All", [⟨2024, 1, 5⟩]⟩
        = applyFilters exDf ⟨"All", "All", []⟩) ∧
    exRec1 ∈ applyFilters exDf ⟨"All", "All", [⟨2024, 1, 1⟩, ⟨2024, 1, 1⟩]⟩ ∧
    dateMask ⟨2024, 1, 1⟩ ⟨2024, 1, 3⟩ exRec1
      = dateMask ⟨2024, 1, 1⟩ ⟨2024, 1, 3⟩
          { exRec1 with departure_date := ⟨⟨2024, 1, 1⟩, 9999⟩ } :=
  ⟨(c10_date_range_filter exDf "All" "All").1 [⟨2024, 1, 5⟩] (by decide),
    ((c10_date_range_filter exDf "All" "All").2.1 ⟨2024, 1, 1⟩ ⟨2024, 1, 1⟩
        exRec1).mpr ⟨List.Mem.head _, by decide, by decide⟩,
    (c10_date_range_filter exDf "All" "All").2.2 ⟨2024, 1, 1⟩ ⟨2024, 1, 3⟩
      exRec1 { exRec1 with departure_date := ⟨⟨2024, 1, 1⟩, 9999⟩ } rfl⟩
